import Mathlib

/-!
Shallow embedding of the quickurl HTTP benchmarking engine
(src/cli.rs, src/http_client.rs, src/engine.rs, src/stats.rs,
src/template.rs), together with theorems settling the specification
claims about it.

Conventions of the embedding:
* Rust `std::time::Duration` is a pair (secs, nanos) of naturals.
* `Instant` values are natural-number timestamps passed explicitly.
* Rust `HashMap<K, u64>` counters are association lists updated by `bump`
  (the `entry(k).or_insert(0) += 1` idiom); order of keys is irrelevant
  for all the properties proved here.
* The HDR latency histogram is modelled by the list of recorded values
  (microseconds), which is enough for every claim about it.
* Impure parts (clocks, PRNGs, the network) become explicit parameters
  or oracle functions.
-/

namespace Quickurl

/-! ## `std::time::Duration` -/

/-- Model of Rust `std::time::Duration`: whole seconds plus a
sub-second nanosecond part (`nanos < 10^9` for values built by the
constructors below). -/
structure Duration where
  secs : Nat
  nanos : Nat
deriving DecidableEq, Repr

/-- Rust `Duration::from_secs`. -/
def Duration.fromSecs (n : Nat) : Duration := ⟨n, 0⟩

/-- Rust `Duration::from_millis`. -/
def Duration.fromMillis (ms : Nat) : Duration := ⟨ms / 1000, (ms % 1000) * 1000000⟩

/-- Rust `Duration::as_secs`: the whole-second component. -/
def Duration.asSecs (d : Duration) : Nat := d.secs

/-- Total length in nanoseconds. -/
def Duration.toNanos (d : Duration) : Nat := d.secs * 1000000000 + d.nanos

/-- Rust `Duration::as_micros` (truncating). -/
def Duration.asMicros (d : Duration) : Nat := d.toNanos / 1000

/-! ## `src/cli.rs`: `parse_duration_string` -/

/-- Leading/trailing whitespace removal, Rust `str::trim`. -/
def trimChars (cs : List Char) : List Char :=
  ((cs.dropWhile Char.isWhitespace).reverse.dropWhile Char.isWhitespace).reverse

/-- Value of a digit string, most significant first. -/
def digitsVal (cs : List Char) : Nat :=
  cs.foldl (fun acc c => acc * 10 + (c.toNat - '0'.toNat)) 0

/-- Rust `str::parse::<u64>()`: an optional leading `+`, then one or
more ASCII digits, value below `2^64`. -/
def parseU64 (cs : List Char) : Option Nat :=
  let ds := if cs.head? = some '+' then cs.tail else cs
  if ds = [] then none
  else if ds.all Char.isDigit then
    if digitsVal ds < 2 ^ 64 then some (digitsVal ds) else none
  else none

/-- `parse_duration_string` from `src/cli.rs` (lines 136-156): trim, then
dispatch on the suffix `ms` / `s` / `m` / `h`, defaulting to seconds.
The suffix tests `ends_with("ms")`, `ends_with('s')`, ... are performed
in source order, here as a match on the reversed character list.
Multiplications that happen in Rust `u64` arithmetic are reduced
modulo `2^64`. -/
def parse_duration_string (cs : List Char) : Option Duration :=
  let s := trimChars cs
  match s.reverse with
  | 's' :: 'm' :: r => (parseU64 r.reverse).map Duration.fromMillis
  | 's' :: r => (parseU64 r.reverse).map Duration.fromSecs
  | 'm' :: r => (parseU64 r.reverse).map (fun n => Duration.fromSecs (n * 60 % 2 ^ 64))
  | 'h' :: r => (parseU64 r.reverse).map (fun n => Duration.fromSecs (n * 3600 % 2 ^ 64))
  | _ => (parseU64 s).map Duration.fromSecs

/-! ## `src/http_client.rs`: `HttpClient::request` timeout control -/

/-- Failure modes of the inner `do_req` future in `HttpClient::request`
(everything except the timeout arm): invalid URL, request build failure,
connect failure, handshake failure, send failure. -/
inductive DoReqError where
  | invalidUrl
  | buildRequestFailed
  | connectFailed
  | handshakeFailed
  | sendFailed
deriving DecidableEq, Repr

/-- Failure modes of `HttpClient::request` as a whole: an inner
`do_req` error, or the `"Request timeout"` error from the timeout arm. -/
inductive RequestError where
  | inner (e : DoReqError)
  | timeout
deriving DecidableEq, Repr

/-- Lift the result of the `do_req` future into the result type of
`request`. -/
def liftDoReq (r : Except DoReqError (Nat × Nat)) : Except RequestError (Nat × Nat) :=
  match r with
  | .ok v => .ok v
  | .error e => .error (.inner e)

/-- Timeout control of `HttpClient::request` (`src/http_client.rs`
lines 185-196).  The inner async block `do_req` is abstracted by the
wall-clock nanoseconds it would need to complete (`doReqNanos`) and the
result it would produce (`doReqResult`).  The code races `do_req`
against `tokio::time::sleep(self.timeout)` only when
`self.timeout.as_secs() > 0`; otherwise it awaits `do_req` with no
deadline. -/
def HttpClient.request (timeout : Duration) (doReqNanos : Nat)
    (doReqResult : Except DoReqError (Nat × Nat)) : Except RequestError (Nat × Nat) :=
  if timeout.asSecs > 0 then
    if timeout.toNanos < doReqNanos then .error .timeout
    else liftDoReq doReqResult
  else
    liftDoReq doReqResult

/-! ## `src/engine.rs`: worker sizing and template selection -/

/-- The sizing quantities computed at the top of `run_workers`
(`src/engine.rs` lines 138-151). -/
structure WorkerSizing where
  actual_threads : Nat
  connections_per_thread : Nat
  pool_size : Nat
  connections_per_client : Nat
deriving DecidableEq, Repr

/-- `run_workers` sizing logic: thread count defaults to the physical
core count when 0 and is clamped to twice the physical core count
otherwise; each thread hosts `max(1, connections / actual_threads)`
tasks; the pool holds `min(actual_threads, 20)` clients. -/
def run_workers_sizing (connections threads num_physical_cpus : Nat) : WorkerSizing :=
  let actual_threads := if threads = 0 then num_physical_cpus
    else min threads (num_physical_cpus * 2)
  let connections_per_thread := max (connections / actual_threads) 1
  let pool_size := min actual_threads 20
  let connections_per_client := max (connections / pool_size) 1
  ⟨actual_threads, connections_per_thread, pool_size, connections_per_client⟩

/-- Outcome of the load-strategy dispatch in the worker task body
(`src/engine.rs` lines 192-200): either a deterministic index, or a
uniformly random draw from `0..num_templates` via the thread-local
PRNG (`rand::thread_rng().gen_range`). -/
inductive Selection where
  | index (i : Nat)
  | uniformRandom
deriving DecidableEq, Repr

/-- The load-strategy dispatch: `"round-robin"` picks
`request_count % commands.len()`; every other strategy string falls to
the wildcard arm, a uniformly random index. -/
def selectTemplate (load_strategy : String) (request_count num_templates : Nat) : Selection :=
  if load_strategy = "round-robin" then .index (request_count % num_templates)
  else .uniformRandom

/-- Number of iterations `n < N` at which a round-robin task over `m`
templates selects template index `i` (the task's `request_count` runs
0, 1, 2, ... across iterations). -/
def rrHits (N m i : Nat) : Nat :=
  ((List.range N).filter (fun n => decide (selectTemplate "round-robin" n m = .index i))).length

/-! ## `src/stats.rs`: the statistics pipeline -/

/-- `RequestResult` from `src/stats.rs`: one per attempted request. -/
structure RequestResult where
  duration : Duration
  status_code : Option Nat
  bytes_read : Nat
  error : Option String
  endpoint : Option String
deriving DecidableEq, Repr

/-- The `*map.entry(k).or_insert(0) += 1` idiom on a counter map,
modelled on an association list. -/
def bump {α : Type} [DecidableEq α] : List (α × Nat) → α → List (α × Nat)
  | [], k => [(k, 1)]
  | (k', v) :: m, k =>
    if k' = k then (k', v + 1) :: m else (k', v) :: bump m k

/-- Counter lookup: the count stored for `k`, 0 when absent. -/
def lookupCount {α : Type} [DecidableEq α] : List (α × Nat) → α → Nat
  | [], _ => 0
  | (k', v) :: m, k => if k' = k then v else lookupCount m k

/-- Sum of all counts in a counter map. -/
def sumCounts {α : Type} (m : List (α × Nat)) : Nat :=
  (m.map Prod.snd).sum

/-- `EndpointStats` from `src/stats.rs`: a per-endpoint sub-aggregate.
The HDR histogram is modelled by the list of recorded microsecond
values. -/
structure EndpointStats where
  requests : Nat
  errors : Nat
  total_bytes : Nat
  latency_histogram : List Nat
  status_codes : List (Nat × Nat)
deriving DecidableEq, Repr

/-- `EndpointStats::new`. -/
def EndpointStats.new : EndpointStats :=
  { requests := 0, errors := 0, total_bytes := 0
    latency_histogram := [], status_codes := [] }

/-- `EndpointStats::record` (`src/stats.rs` lines 49-65). -/
def EndpointStats.record (s : EndpointStats) (r : RequestResult) : EndpointStats :=
  let s := { s with requests := s.requests + 1 }
  let s := match r.status_code with
    | some c => { s with status_codes := bump s.status_codes c }
    | none => s
  let s := if r.error.isSome then { s with errors := s.errors + 1 } else s
  let s := { s with total_bytes := s.total_bytes + r.bytes_read }
  { s with latency_histogram := s.latency_histogram ++ [r.duration.asMicros] }

/-- `Statistics` from `src/stats.rs`.  `Instant`s are natural-number
timestamps. -/
structure Statistics where
  start_time : Nat
  end_time : Option Nat
  total_requests : Nat
  successful_requests : Nat
  failed_requests : Nat
  total_bytes : Nat
  latency_histogram : List Nat
  status_codes : List (Nat × Nat)
  errors : List (String × Nat)
  endpoint_stats : List (String × EndpointStats)
deriving DecidableEq, Repr

/-- `Statistics::new`, with the creating instant passed explicitly. -/
def Statistics.new (now : Nat) : Statistics :=
  { start_time := now, end_time := none
    total_requests := 0, successful_requests := 0, failed_requests := 0
    total_bytes := 0, latency_histogram := []
    status_codes := [], errors := [], endpoint_stats := [] }

/-- `self.endpoint_stats.entry(e).or_insert_with(EndpointStats::new)`
followed by `endpoint_stat.record(&result)`. -/
def updateEndpoint : List (String × EndpointStats) → String → RequestResult →
    List (String × EndpointStats)
  | [], k, r => [(k, EndpointStats.record EndpointStats.new r)]
  | (k', v) :: m, k, r =>
    if k' = k then (k', EndpointStats.record v r) :: m
    else (k', v) :: updateEndpoint m k r

/-- `Statistics::record` (`src/stats.rs` lines 99-128). -/
def Statistics.record (s : Statistics) (r : RequestResult) : Statistics :=
  let s := { s with total_requests := s.total_requests + 1 }
  let s := match r.error with
    | some msg =>
      { s with failed_requests := s.failed_requests + 1
               errors := bump s.errors msg }
    | none => { s with successful_requests := s.successful_requests + 1 }
  let s := match r.status_code with
    | some c => { s with status_codes := bump s.status_codes c }
    | none => s
  let s := { s with total_bytes := s.total_bytes + r.bytes_read }
  let s := { s with latency_histogram := s.latency_histogram ++ [r.duration.asMicros] }
  match r.endpoint with
  | some e => { s with endpoint_stats := updateEndpoint s.endpoint_stats e r }
  | none => s

/-- `Statistics::finish` (`src/stats.rs` lines 130-132): store the
current instant as the end time. -/
def Statistics.finish (s : Statistics) (now : Nat) : Statistics :=
  { s with end_time := some now }

/-- `Statistics::duration` (`src/stats.rs` lines 134-139). -/
def Statistics.duration (s : Statistics) (now : Nat) : Nat :=
  match s.end_time with
  | some e => e - s.start_time
  | none => now - s.start_time

/-! ### Histogram reads and snapshots -/

/-- `Histogram::min` on the list model: smallest recorded value, 0 when
empty. -/
def histMin (h : List Nat) : Nat := (h.min?).getD 0

/-- `Histogram::max` on the list model: largest recorded value, 0 when
empty. -/
def histMax (h : List Nat) : Nat := (h.max?).getD 0

/-- Floor of the histogram mean (`histogram.mean() as u64`), 0 when
empty. -/
def histMeanFloor (h : List Nat) : Nat := h.sum / h.length

/-- `Histogram::value_at_percentile` on the list model: the value at
cumulative rank `⌈p·n/100⌉` (at least 1) of the sorted recordings, 0
when empty. -/
def valueAtPercentile (h : List Nat) (p : Nat) : Nat :=
  let sorted := List.insertionSort (· ≤ ·) h
  sorted.getD (max 1 ((p * h.length + 99) / 100) - 1) 0

/-- `Statistics::avg_latency` in microseconds. -/
def Statistics.avg_latency (s : Statistics) : Nat :=
  if s.total_requests = 0 then 0 else histMeanFloor s.latency_histogram

/-- `Statistics::percentile` in microseconds. -/
def Statistics.percentile (s : Statistics) (p : Nat) : Nat :=
  valueAtPercentile s.latency_histogram p

/-- `EndpointStats::avg_latency` in microseconds. -/
def EndpointStats.avg_latency (s : EndpointStats) : Nat :=
  if s.requests = 0 then 0 else histMeanFloor s.latency_histogram

/-- `EndpointStats::min_latency` in microseconds. -/
def EndpointStats.min_latency (s : EndpointStats) : Nat := histMin s.latency_histogram

/-- `EndpointStats::max_latency` in microseconds. -/
def EndpointStats.max_latency (s : EndpointStats) : Nat := histMax s.latency_histogram

/-- Microseconds rendered as exact milliseconds
(`Duration::from_micros(v).as_secs_f64() * 1000.0`). -/
def microsToMs (v : Nat) : ℚ := (v : ℚ) / 1000

/-- `EndpointStatsSnapshot` from `src/stats.rs`. -/
structure EndpointStatsSnapshot where
  url : String
  requests : Nat
  errors : Nat
  total_bytes : Nat
  avg_latency_ms : ℚ
  min_latency_ms : ℚ
  max_latency_ms : ℚ
  status_codes : List (Nat × Nat)
deriving DecidableEq, Repr

/-- `StatisticsSnapshot` from `src/stats.rs`. -/
structure StatisticsSnapshot where
  total_requests : Nat
  successful_requests : Nat
  failed_requests : Nat
  total_bytes : Nat
  avg_latency_ms : ℚ
  min_latency_ms : ℚ
  max_latency_ms : ℚ
  p50_latency_ms : ℚ
  p75_latency_ms : ℚ
  p90_latency_ms : ℚ
  p95_latency_ms : ℚ
  p99_latency_ms : ℚ
  status_codes : List (Nat × Nat)
  errors : List (String × Nat)
  endpoint_stats : List (String × EndpointStatsSnapshot)
deriving DecidableEq, Repr

/-- `StatisticsSnapshot::from_statistics` (`src/stats.rs` lines
362-400).  Note that it reads every aggregate field except
`start_time` and `end_time`. -/
def StatisticsSnapshot.from_statistics (s : Statistics) : StatisticsSnapshot :=
  { total_requests := s.total_requests
    successful_requests := s.successful_requests
    failed_requests := s.failed_requests
    total_bytes := s.total_bytes
    avg_latency_ms := microsToMs s.avg_latency
    min_latency_ms := microsToMs (histMin s.latency_histogram)
    max_latency_ms := microsToMs (histMax s.latency_histogram)
    p50_latency_ms := microsToMs (s.percentile 50)
    p75_latency_ms := microsToMs (s.percentile 75)
    p90_latency_ms := microsToMs (s.percentile 90)
    p95_latency_ms := microsToMs (s.percentile 95)
    p99_latency_ms := microsToMs (s.percentile 99)
    status_codes := s.status_codes
    errors := s.errors
    endpoint_stats := s.endpoint_stats.map (fun kv =>
      (kv.1,
        { url := kv.1
          requests := kv.2.requests
          errors := kv.2.errors
          total_bytes := kv.2.total_bytes
          avg_latency_ms := microsToMs kv.2.avg_latency
          min_latency_ms := microsToMs kv.2.min_latency
          max_latency_ms := microsToMs kv.2.max_latency
          status_codes := kv.2.status_codes })) }

/-! ## `src/template.rs`: `TemplateEngine::process`

`process` applies `TEMPLATE_REGEX = \x7b\x7b([^\x7d]+)\x7d\x7d` with
`replace_all`: scan left to right; at a position starting with two
opening braces, a match needs a nonempty run of non-closing-brace
characters followed by two closing braces; on a match the whole
placeholder is replaced and scanning resumes after it; otherwise the
scan advances one character.  The replacement —
`evaluate_template(capture)` with its `unwrap_or_else` fallback, which
draws on the variable table, the PRNG, UUIDs and the clock — is
abstracted by the oracle `gen : List Char → List Char` taking the
capture to the replacement text. -/

/-- Helper for the scan: length of `dropWhile` never exceeds the input
length. -/
theorem dropWhile_length_le {α : Type} (p : α → Bool) (l : List α) :
    (l.dropWhile p).length ≤ l.length := by
  induction l with
  | nil => simp [List.dropWhile]
  | cons a l ih =>
    by_cases h : p a
    · simp only [List.dropWhile_cons, h, if_true, List.length_cons]
      omega
    · simp [List.dropWhile_cons, h]

/-- The `replace_all` scan of `TemplateEngine::process`
(`src/template.rs` lines 110-115), on character lists. -/
def processT (gen : List Char → List Char) : List Char → List Char
  | [] => []
  | '{' :: '{' :: rest =>
    if rest.takeWhile (fun c => c ≠ '}') ≠ [] ∧
        (rest.dropWhile (fun c => c ≠ '}')).take 2 = ['}', '}'] then
      gen (rest.takeWhile (fun c => c ≠ '}')) ++
        processT gen ((rest.dropWhile (fun c => c ≠ '}')).drop 2)
    else '{' :: processT gen ('{' :: rest)
  | c :: cs => c :: processT gen cs
termination_by cs => cs.length
decreasing_by
  · have h1 : (rest.dropWhile (fun c => c ≠ '}')).length ≤ rest.length :=
      dropWhile_length_le _ _
    simp only [List.length_drop, List.length_cons]
    omega
  · simp
  · simp

/-- Whether the regex matches anywhere in the text: the same scan as
`processT`, reporting whether any placeholder is found. -/
def hasPlaceholder : List Char → Bool
  | [] => false
  | '{' :: '{' :: rest =>
    if rest.takeWhile (fun c => c ≠ '}') ≠ [] ∧
        (rest.dropWhile (fun c => c ≠ '}')).take 2 = ['}', '}'] then true
    else hasPlaceholder ('{' :: rest)
  | _ :: cs => hasPlaceholder cs
termination_by cs => cs.length
decreasing_by
  · simp
  · simp

/-! ## Helper lemmas about `Statistics.record` -/

theorem record_total_requests (s : Statistics) (r : RequestResult) :
    (s.record r).total_requests = s.total_requests + 1 := by
  cases he : r.error <;> cases hc : r.status_code <;> cases hep : r.endpoint <;>
    simp [Statistics.record, he, hc, hep]

theorem record_failed_requests (s : Statistics) (r : RequestResult) :
    (s.record r).failed_requests =
      s.failed_requests + (if r.error.isSome then 1 else 0) := by
  cases he : r.error <;> cases hc : r.status_code <;> cases hep : r.endpoint <;>
    simp [Statistics.record, he, hc, hep]

theorem record_successful_requests (s : Statistics) (r : RequestResult) :
    (s.record r).successful_requests =
      s.successful_requests + (if r.error.isSome then 0 else 1) := by
  cases he : r.error <;> cases hc : r.status_code <;> cases hep : r.endpoint <;>
    simp [Statistics.record, he, hc, hep]

theorem record_total_bytes (s : Statistics) (r : RequestResult) :
    (s.record r).total_bytes = s.total_bytes + r.bytes_read := by
  cases he : r.error <;> cases hc : r.status_code <;> cases hep : r.endpoint <;>
    simp [Statistics.record, he, hc, hep]

theorem record_endpoint_stats (s : Statistics) (r : RequestResult) :
    (s.record r).endpoint_stats =
      match r.endpoint with
      | some e => updateEndpoint s.endpoint_stats e r
      | none => s.endpoint_stats := by
  cases he : r.error <;> cases hc : r.status_code <;> cases hep : r.endpoint <;>
    simp [Statistics.record, he, hc, hep]

theorem record_status_codes (s : Statistics) (r : RequestResult) :
    (s.record r).status_codes =
      match r.status_code with
      | some c => bump s.status_codes c
      | none => s.status_codes := by
  cases he : r.error <;> cases hc : r.status_code <;> cases hep : r.endpoint <;>
    simp [Statistics.record, he, hc, hep]

/-- Counting invariants are preserved across a fold of `record`. -/
theorem foldl_record_counts (rs : List RequestResult) : ∀ s : Statistics,
    (rs.foldl Statistics.record s).total_requests = s.total_requests + rs.length ∧
    (rs.foldl Statistics.record s).successful_requests +
        (rs.foldl Statistics.record s).failed_requests =
      s.successful_requests + s.failed_requests + rs.length := by
  induction rs with
  | nil => intro s; simp
  | cons r rs ih =>
    intro s
    have h := ih (s.record r)
    simp only [List.foldl_cons, List.length_cons]
    refine ⟨?_, ?_⟩
    · rw [h.1, record_total_requests]; omega
    · rw [h.2, record_successful_requests, record_failed_requests]
      split_ifs <;> omega

/-- C1: every sequence of outcomes folded into `Statistics` via `record`
yields a state with `total_requests = successful_requests +
failed_requests`, and `total_requests` equal to the number of outcomes
recorded; each individual `record` call bumps `total_requests` by one
and exactly one of `successful_requests` / `failed_requests`, chosen by
the presence of the `error` field. -/
theorem record_total_split (now : Nat) (rs : List RequestResult)
    (s : Statistics) (r : RequestResult) :
    ((rs.foldl Statistics.record (Statistics.new now)).total_requests =
        (rs.foldl Statistics.record (Statistics.new now)).successful_requests +
          (rs.foldl Statistics.record (Statistics.new now)).failed_requests) ∧
    (rs.foldl Statistics.record (Statistics.new now)).total_requests = rs.length ∧
    (s.record r).total_requests = s.total_requests + 1 ∧
    (s.record r).failed_requests =
      s.failed_requests + (if r.error.isSome then 1 else 0) ∧
    (s.record r).successful_requests =
      s.successful_requests + (if r.error.isSome then 0 else 1) := by
  have h := foldl_record_counts rs (Statistics.new now)
  refine ⟨?_, ?_, record_total_requests s r, record_failed_requests s r,
    record_successful_requests s r⟩
  · rw [h.1, h.2]; simp [Statistics.new]
  · rw [h.1]; simp [Statistics.new]

/-! ## Timeout claims -/

/-- C2: the spec requires a wall-clock timeout on the whole request for
every configured timeout, but `HttpClient::request` arms the
`tokio::select!` race only when `timeout.as_secs() > 0`.  With the
spec's own scenario — timeout 100 ms against a server that takes
500 ms — the inner future outlives the timeout yet its late result is
returned and no `Timeout` error is produced. -/
theorem timeout_100ms_not_enforced :
    (Duration.fromMillis 100).toNanos < 500 * 1000000 ∧
    HttpClient.request (Duration.fromMillis 100) (500 * 1000000)
        (.ok (200, 4)) = .ok (200, 4) := by
  refine ⟨by decide, ?_⟩
  rfl

/-- C10: whenever the configured timeout has a zero whole-second
component, `request` is exactly the inner `do_req` future with no
deadline — whatever wall-clock time the operation needs — and in
particular it can never return the `Timeout` error. -/
theorem subsecond_timeout_unenforced (t : Duration) (w : Nat)
    (r : Except DoReqError (Nat × Nat)) (h : t.asSecs = 0) :
    HttpClient.request t w r = liftDoReq r ∧
    HttpClient.request t w r ≠ .error .timeout := by
  have harm : ¬ t.asSecs > 0 := by omega
  constructor
  · simp [HttpClient.request, harm]
  · simp only [HttpClient.request, harm, if_false]
    cases r <;> simp [liftDoReq]

/-- Witness for C10 at the concrete sub-second timeout 100 ms with a
request that would take 500 ms. -/
theorem subsecond_timeout_unenforced_witness :
    HttpClient.request (Duration.fromMillis 100) (500 * 1000000)
        (.error .connectFailed) = liftDoReq (.error .connectFailed) ∧
    HttpClient.request (Duration.fromMillis 100) (500 * 1000000)
        (.error .connectFailed) ≠ .error .timeout :=
  subsecond_timeout_unenforced (Duration.fromMillis 100) (500 * 1000000)
    (.error .connectFailed) (by decide)

/-! ## `finish` and snapshots (C3) -/

/-- C3 counterexample: `finish` stores the current instant on every
call, so for the statistics created at instant 0, finished at instant 1
and finished again at instant 2, the second call moves `end_time` from
`some 1` to `some 2` and the observable `duration()` from 1 to 2 —
refuting "calling `finish` a second time does not change the observable
statistics". -/
theorem finish_twice_changes_duration :
    ((Statistics.new 0).finish 1).end_time = some 1 ∧
    (((Statistics.new 0).finish 1).finish 2).end_time = some 2 ∧
    ((Statistics.new 0).finish 1).duration 5 = 1 ∧
    (((Statistics.new 0).finish 1).finish 2).duration 5 = 2 := by
  decide

/-- C3 (amended): `finish` overwrites `end_time` with the current
instant on every call (so a second, later call changes `end_time` and
`duration()`); but `StatisticsSnapshot::from_statistics` reads no
time-derived field, so snapshots taken after `finish` — including after
repeated `finish` — are all equal. -/
theorem snapshot_stable_after_finish (s : Statistics) (t t' : Nat) :
    (s.finish t).end_time = some t ∧
    StatisticsSnapshot.from_statistics (s.finish t) =
      StatisticsSnapshot.from_statistics s ∧
    StatisticsSnapshot.from_statistics ((s.finish t).finish t') =
      StatisticsSnapshot.from_statistics (s.finish t) :=
  ⟨rfl, rfl, rfl⟩

/-! ## Worker sizing (C8) -/

/-- C8: with at least one physical core, the worker-thread count is the
physical core count when the requested count is 0 and
`min(T, 2 × physical)` otherwise, and each thread hosts
`max(1, C ÷ T_actual)` logical connections. -/
theorem worker_sizing (connections threads physical : Nat) (h : 0 < physical) :
    (run_workers_sizing connections threads physical).actual_threads =
      (if threads = 0 then physical else min threads (2 * physical)) ∧
    (run_workers_sizing connections threads physical).connections_per_thread =
      max 1 (connections /
        (run_workers_sizing connections threads physical).actual_threads) := by
  constructor
  · simp [run_workers_sizing, Nat.mul_comm]
  · simp [run_workers_sizing, Nat.max_comm]

/-- Witness for C8: 10 connections over 3 requested threads on a
machine with 4 physical cores. -/
theorem worker_sizing_witness :
    (run_workers_sizing 10 3 4).actual_threads =
      (if 3 = 0 then 4 else min 3 (2 * 4)) ∧
    (run_workers_sizing 10 3 4).connections_per_thread =
      max 1 (10 / (run_workers_sizing 10 3 4).actual_threads) :=
  worker_sizing 10 3 4 (by decide)

/-! ## Load-strategy selection (C4) -/

/-- Closed form for the number of times a round-robin task over 3
templates selects index `i` in its first `N` iterations. -/
theorem rrHits_three (N i : Nat) (hi : i < 3) :
    rrHits N 3 i = N / 3 + (if i < N % 3 then 1 else 0) := by
  induction N with
  | zero => simp [rrHits]
  | succ n ih =>
    have hstep : rrHits (n + 1) 3 i = rrHits n 3 i + (if n % 3 = i then 1 else 0) := by
      simp only [rrHits, List.range_succ, List.filter_append, List.length_append]
      by_cases h : n % 3 = i <;> simp [selectTemplate, h]
    rw [hstep, ih]
    split_ifs <;> omega

/-- C4: `"round-robin"` selects template index
`request_count mod num_templates`; every other strategy string — the
default `"random"` and any unrecognized policy — falls to the wildcard
arm drawing a uniformly random index from the thread-local PRNG; and a
round-robin task issuing `N` requests over 3 templates selects each
index `i < 3` either `⌈N/3⌉ = (N+2)/3` or `⌊N/3⌋` times. -/
theorem load_strategy_selection (ls : String) (hls : ls ≠ "round-robin")
    (n m N i : Nat) (hi : i < 3) :
    selectTemplate "round-robin" n m = Selection.index (n % m) ∧
    selectTemplate ls n m = Selection.uniformRandom ∧
    (rrHits N 3 i = (N + 2) / 3 ∨ rrHits N 3 i = N / 3) := by
  refine ⟨by simp [selectTemplate], by simp [selectTemplate, hls], ?_⟩
  rw [rrHits_three N i hi]
  split_ifs with hlt
  · left; omega
  · right; omega

/-- Witness for C4: the `"random"` strategy, iteration 5 over 2
templates, and a round-robin task issuing 7 requests over 3 templates
counted at index 1. -/
theorem load_strategy_selection_witness :
    selectTemplate "round-robin" 5 2 = Selection.index (5 % 2) ∧
    selectTemplate "random" 5 2 = Selection.uniformRandom ∧
    (rrHits 7 3 1 = (7 + 2) / 3 ∨ rrHits 7 3 1 = 7 / 3) :=
  load_strategy_selection "random" (by decide) 5 2 7 1 (by decide)

/-! ## Duration-string parsing (C5) -/

theorem digit_not_whitespace {c : Char} (h : c.isDigit = true) :
    c.isWhitespace = false := by
  simp [Char.isDigit] at h
  by_contra hw
  simp only [Bool.not_eq_false] at hw
  simp [Char.isWhitespace] at hw
  rcases hw with ((h1 | h1) | h1) | h1 <;> subst h1 <;> revert h <;> decide

theorem dropWhile_ws_of_digits {l : List Char} (h : ∀ c ∈ l, c.isDigit = true) :
    l.dropWhile Char.isWhitespace = l := by
  cases l with
  | nil => rfl
  | cons a t =>
    have ha := digit_not_whitespace (h a (by simp))
    simp [List.dropWhile_cons, ha]

theorem trimChars_of_digits {l : List Char} (h : ∀ c ∈ l, c.isDigit = true) :
    trimChars l = l := by
  unfold trimChars
  rw [dropWhile_ws_of_digits h,
    dropWhile_ws_of_digits (fun c hc => h c (List.mem_reverse.1 hc)),
    List.reverse_reverse]

theorem parseU64_of_digits {l : List Char} (hne : l ≠ [])
    (hd : ∀ c ∈ l, c.isDigit = true) (hlt : digitsVal l < 2 ^ 64) :
    parseU64 l = some (digitsVal l) := by
  have hplus : ¬ l.head? = some '+' := by
    intro hh
    have : '+' ∈ l := by
      cases l with
      | nil => simp at hh
      | cons a t => simp at hh; simp [hh]
    exact absurd (hd '+' this) (by decide)
  have hall : l.all Char.isDigit = true := by simpa [List.all_eq_true] using hd
  have hlt' : digitsVal l < 18446744073709551616 := hlt
  simp [parseU64, hplus, hne, hall, hlt']

/-- C5: the duration parser maps `"100ms"` to 100 ms, `"10s"` to 10 s,
`"5m"` to 300 s, `"1h"` to 3600 s; and every suffix-free numeric string
(nonempty, all ASCII digits, value in `u64` range) parses as that many
seconds. -/
theorem duration_parser_law (l : List Char) (hne : l ≠ [])
    (hd : l.all Char.isDigit = true) (hlt : digitsVal l < 2 ^ 64) :
    parse_duration_string ['1', '0', '0', 'm', 's'] =
      some (Duration.fromMillis 100) ∧
    parse_duration_string ['1', '0', 's'] = some (Duration.fromSecs 10) ∧
    parse_duration_string ['5', 'm'] = some (Duration.fromSecs 300) ∧
    parse_duration_string ['1', 'h'] = some (Duration.fromSecs 3600) ∧
    parse_duration_string l = some (Duration.fromSecs (digitsVal l)) := by
  have hd' : ∀ c ∈ l, c.isDigit = true := by simpa [List.all_eq_true] using hd
  refine ⟨by decide, by decide, by decide, by decide, ?_⟩
  simp only [parse_duration_string, trimChars_of_digits hd']
  have hmem : ∀ c (r : List Char), l.reverse = c :: r → c.isDigit = true := by
    intro c r heq
    refine hd' c (List.mem_reverse.1 ?_)
    rw [heq]; simp
  split
  · rename_i r heq; exact absurd (hmem _ _ heq) (by decide)
  · rename_i r heq; exact absurd (hmem _ _ heq) (by decide)
  · rename_i r heq; exact absurd (hmem _ _ heq) (by decide)
  · rename_i r heq; exact absurd (hmem _ _ heq) (by decide)
  · rw [parseU64_of_digits hne hd' hlt]; rfl

/-- Witness for C5 at the suffix-free numeric string `"42"`. -/
theorem duration_parser_law_witness :
    parse_duration_string ['1', '0', '0', 'm', 's'] =
      some (Duration.fromMillis 100) ∧
    parse_duration_string ['1', '0', 's'] = some (Duration.fromSecs 10) ∧
    parse_duration_string ['5', 'm'] = some (Duration.fromSecs 300) ∧
    parse_duration_string ['1', 'h'] = some (Duration.fromSecs 3600) ∧
    parse_duration_string ['4', '2'] =
      some (Duration.fromSecs (digitsVal ['4', '2'])) :=
  duration_parser_law ['4', '2'] (by decide) (by decide) (by decide)

/-! ## Template processing (C6) -/

/-- The scan leaves placeholder-free text unchanged. -/
theorem processT_of_no_placeholder (gen : List Char → List Char) (cs : List Char)
    (h : hasPlaceholder cs = false) : processT gen cs = cs := by
  induction cs using hasPlaceholder.induct with
  | case1 => rw [processT.eq_1]
  | case2 rest hcond =>
    rw [hasPlaceholder.eq_2, if_pos hcond] at h
    exact absurd h (by simp)
  | case3 rest hcond ih =>
    rw [hasPlaceholder.eq_2, if_neg hcond] at h
    rw [processT.eq_2, if_neg hcond, ih h]
  | case4 c cs hne ih =>
    rw [hasPlaceholder.eq_3 c cs hne] at h
    rw [processT.eq_3 gen c cs hne, ih h]

/-- C6: `TemplateEngine::process` is the identity on input with no
`\x7b\x7b...\x7d\x7d` placeholder, for every replacement oracle `gen`
(i.e. whatever the engine's variables, PRNG, clock or UUIDs would
substitute) — and hence idempotent on such input. -/
theorem process_identity_no_placeholder (gen : List Char → List Char)
    (cs : List Char) (h : hasPlaceholder cs = false) :
    processT gen cs = cs ∧ processT gen (processT gen cs) = processT gen cs := by
  have h1 := processT_of_no_placeholder gen cs h
  exact ⟨h1, by rw [h1, h1]⟩

/-- Witness for C6 on the placeholder-free text `"hello"` with a
nontrivial oracle. -/
theorem process_identity_no_placeholder_witness :
    processT (fun _ => ['X']) ['h', 'e', 'l', 'l', 'o'] = ['h', 'e', 'l', 'l', 'o'] ∧
    processT (fun _ => ['X'])
        (processT (fun _ => ['X']) ['h', 'e', 'l', 'l', 'o']) =
      processT (fun _ => ['X']) ['h', 'e', 'l', 'l', 'o'] :=
  process_identity_no_placeholder (fun _ => ['X']) ['h', 'e', 'l', 'l', 'o']
    (by simp [hasPlaceholder])

/-! ## Per-endpoint sub-aggregates (C7) -/

theorem ep_record_requests (v : EndpointStats) (r : RequestResult) :
    (v.record r).requests = v.requests + 1 := by
  cases hc : r.status_code <;> cases he : r.error <;>
    simp [EndpointStats.record, hc, he]

theorem ep_record_errors (v : EndpointStats) (r : RequestResult) :
    (v.record r).errors = v.errors + (if r.error.isSome then 1 else 0) := by
  cases hc : r.status_code <;> cases he : r.error <;>
    simp [EndpointStats.record, hc, he]

theorem ep_record_bytes (v : EndpointStats) (r : RequestResult) :
    (v.record r).total_bytes = v.total_bytes + r.bytes_read := by
  cases hc : r.status_code <;> cases he : r.error <;>
    simp [EndpointStats.record, hc, he]

theorem record_endpoint_stats_none (s : Statistics) (r : RequestResult)
    (h : r.endpoint = none) : (s.record r).endpoint_stats = s.endpoint_stats := by
  cases he : r.error <;> cases hc : r.status_code <;>
    simp [Statistics.record, he, hc, h]

theorem record_endpoint_stats_some (s : Statistics) (r : RequestResult) (e : String)
    (h : r.endpoint = some e) :
    (s.record r).endpoint_stats = updateEndpoint s.endpoint_stats e r := by
  cases he : r.error <;> cases hc : r.status_code <;>
    simp [Statistics.record, he, hc, h]

/-- Every entry of `updateEndpoint m k r` is an old entry, the fresh
entry recorded from `EndpointStats::new`, or an old entry with one more
outcome recorded. -/
theorem mem_updateEndpoint {m : List (String × EndpointStats)} {k : String}
    {r : RequestResult} {x : String × EndpointStats}
    (hx : x ∈ updateEndpoint m k r) :
    x ∈ m ∨ x.2 = EndpointStats.record EndpointStats.new r ∨
      ∃ v, (x.1, v) ∈ m ∧ x.2 = EndpointStats.record v r := by
  induction m with
  | nil =>
    simp [updateEndpoint] at hx
    right; left
    rw [hx]
  | cons p m ih =>
    obtain ⟨k', v⟩ := p
    rw [updateEndpoint] at hx
    by_cases hk : k' = k
    · rw [if_pos hk] at hx
      rcases List.mem_cons.1 hx with hx1 | hx1
      · right; right
        exact ⟨v, by rw [hx1]; simp, by rw [hx1]⟩
      · left; exact List.mem_cons_of_mem _ hx1
    · rw [if_neg hk] at hx
      rcases List.mem_cons.1 hx with hx1 | hx1
      · left; rw [hx1]; simp
      · rcases ih hx1 with h1 | h1 | ⟨w, hw1, hw2⟩
        · left; exact List.mem_cons_of_mem _ h1
        · right; left; exact h1
        · right; right; exact ⟨w, List.mem_cons_of_mem _ hw1, hw2⟩

/-- The per-endpoint-vs-global bounds, as an invariant of `Statistics`. -/
def EndpointInv (s : Statistics) : Prop :=
  ∀ p ∈ s.endpoint_stats,
    p.2.requests ≤ s.total_requests ∧ p.2.total_bytes ≤ s.total_bytes ∧
      p.2.errors ≤ s.failed_requests

theorem endpointInv_record {s : Statistics} (r : RequestResult)
    (h : EndpointInv s) : EndpointInv (s.record r) := by
  intro p hp
  rw [record_total_requests, record_total_bytes, record_failed_requests]
  cases hep : r.endpoint with
  | none =>
    rw [record_endpoint_stats_none s r hep] at hp
    have hb := h p hp
    refine ⟨by omega, by omega, ?_⟩
    split_ifs <;> omega
  | some e =>
    rw [record_endpoint_stats_some s r e hep] at hp
    rcases mem_updateEndpoint hp with hm | hnew | ⟨v, hvm, hrec⟩
    · have hb := h p hm
      refine ⟨by omega, by omega, ?_⟩
      split_ifs <;> omega
    · rw [hnew, ep_record_requests, ep_record_errors, ep_record_bytes]
      simp only [EndpointStats.new]
      refine ⟨by omega, by omega, by omega⟩
    · have hb : v.requests ≤ s.total_requests ∧ v.total_bytes ≤ s.total_bytes ∧
          v.errors ≤ s.failed_requests := h (p.1, v) hvm
      rw [hrec, ep_record_requests, ep_record_errors, ep_record_bytes]
      obtain ⟨hb1, hb2, hb3⟩ := hb
      refine ⟨by omega, by omega, ?_⟩
      split_ifs <;> omega

theorem endpointInv_foldl (rs : List RequestResult) :
    ∀ s : Statistics, EndpointInv s → EndpointInv (rs.foldl Statistics.record s) := by
  induction rs with
  | nil => intro s h; exact h
  | cons r rs ih => intro s h; exact ih _ (endpointInv_record r h)

/-- C7: after any sequence of `record` calls starting from
`Statistics::new`, every endpoint's sub-aggregate is bounded by the
matching global aggregate: requests by `total_requests`, bytes by
`total_bytes`, errors by `failed_requests`. -/
theorem endpoint_stats_le_global (now : Nat) (rs : List RequestResult)
    (e : String) (st : EndpointStats)
    (hmem : (e, st) ∈ (rs.foldl Statistics.record (Statistics.new now)).endpoint_stats) :
    st.requests ≤ (rs.foldl Statistics.record (Statistics.new now)).total_requests ∧
    st.total_bytes ≤ (rs.foldl Statistics.record (Statistics.new now)).total_bytes ∧
    st.errors ≤ (rs.foldl Statistics.record (Statistics.new now)).failed_requests :=
  endpointInv_foldl rs (Statistics.new now)
    (fun p hp => absurd hp (by simp [Statistics.new])) (e, st) hmem

/-- Witness for C7: two outcomes, one failed, both tagged with
endpoint `"a"`. -/
theorem endpoint_stats_le_global_witness :
    (EndpointStats.record
        (EndpointStats.record EndpointStats.new
          ⟨⟨0, 0⟩, some 200, 4, none, some "a"⟩)
        ⟨⟨0, 0⟩, none, 0, some "err", some "a"⟩).requests ≤
      ([⟨⟨0, 0⟩, some 200, 4, none, some "a"⟩,
        ⟨⟨0, 0⟩, none, 0, some "err", some "a"⟩].foldl Statistics.record
          (Statistics.new 0)).total_requests ∧
    (EndpointStats.record
        (EndpointStats.record EndpointStats.new
          ⟨⟨0, 0⟩, some 200, 4, none, some "a"⟩)
        ⟨⟨0, 0⟩, none, 0, some "err", some "a"⟩).total_bytes ≤
      ([⟨⟨0, 0⟩, some 200, 4, none, some "a"⟩,
        ⟨⟨0, 0⟩, none, 0, some "err", some "a"⟩].foldl Statistics.record
          (Statistics.new 0)).total_bytes ∧
    (EndpointStats.record
        (EndpointStats.record EndpointStats.new
          ⟨⟨0, 0⟩, some 200, 4, none, some "a"⟩)
        ⟨⟨0, 0⟩, none, 0, some "err", some "a"⟩).errors ≤
      ([⟨⟨0, 0⟩, some 200, 4, none, some "a"⟩,
        ⟨⟨0, 0⟩, none, 0, some "err", some "a"⟩].foldl Statistics.record
          (Statistics.new 0)).failed_requests :=
  endpoint_stats_le_global 0
    [⟨⟨0, 0⟩, some 200, 4, none, some "a"⟩,
     ⟨⟨0, 0⟩, none, 0, some "err", some "a"⟩] "a"
    (EndpointStats.record
      (EndpointStats.record EndpointStats.new
        ⟨⟨0, 0⟩, some 200, 4, none, some "a"⟩)
      ⟨⟨0, 0⟩, none, 0, some "err", some "a"⟩)
    (by decide)

/-! ## Status-code counters (C9) -/

theorem sumCounts_bump {α : Type} [DecidableEq α] (m : List (α × Nat)) (k : α) :
    sumCounts (bump m k) = sumCounts m + 1 := by
  induction m with
  | nil => simp [bump, sumCounts]
  | cons p m ih =>
    obtain ⟨k', v⟩ := p
    by_cases hk : k' = k <;> simp [bump, hk, sumCounts] <;>
      simp [sumCounts] at ih <;> omega

theorem lookupCount_bump {α : Type} [DecidableEq α] (m : List (α × Nat)) (k : α) :
    lookupCount (bump m k) k = lookupCount m k + 1 := by
  induction m with
  | nil => simp [bump, lookupCount]
  | cons p m ih =>
    obtain ⟨k', v⟩ := p
    by_cases hk : k' = k <;> simp [bump, hk, lookupCount, ih]

theorem record_status_codes_none (s : Statistics) (r : RequestResult)
    (h : r.status_code = none) : (s.record r).status_codes = s.status_codes := by
  cases he : r.error <;> cases hep : r.endpoint <;>
    simp [Statistics.record, he, hep, h]

theorem record_status_codes_some (s : Statistics) (r : RequestResult) (c : Nat)
    (h : r.status_code = some c) :
    (s.record r).status_codes = bump s.status_codes c := by
  cases he : r.error <;> cases hep : r.endpoint <;>
    simp [Statistics.record, he, hep, h]

theorem sumStatus_le_total_foldl (rs : List RequestResult) :
    ∀ s : Statistics, sumCounts s.status_codes ≤ s.total_requests →
      sumCounts (rs.foldl Statistics.record s).status_codes ≤
        (rs.foldl Statistics.record s).total_requests := by
  induction rs with
  | nil => intro s h; exact h
  | cons r rs ih =>
    intro s h
    refine ih _ ?_
    rw [record_total_requests]
    cases hc : r.status_code with
    | none => rw [record_status_codes_none s r hc]; omega
    | some c => rw [record_status_codes_some s r c hc, sumCounts_bump]; omega

/-- C9: in every state reachable by folding `record` from
`Statistics::new`, the counts in `status_codes` sum to at most
`total_requests`; and `record` bumps the status counter whenever a
status is present — the `error` field (present or not) does not gate
the `status_codes` update, so a failed outcome carrying a status still
counts. -/
theorem status_codes_sum_bounded (now : Nat) (rs : List RequestResult)
    (s : Statistics) (r : RequestResult) (c : Nat) (hc : r.status_code = some c) :
    sumCounts (rs.foldl Statistics.record (Statistics.new now)).status_codes ≤
      (rs.foldl Statistics.record (Statistics.new now)).total_requests ∧
    lookupCount (s.record r).status_codes c = lookupCount s.status_codes c + 1 := by
  constructor
  · exact sumStatus_le_total_foldl rs (Statistics.new now) (by simp [Statistics.new, sumCounts])
  · rw [record_status_codes_some s r c hc, lookupCount_bump]

/-- Witness for C9: one successful and one failed outcome, the failed
one carrying both status 500 and an error message, recorded on top of
the empty statistics. -/
theorem status_codes_sum_bounded_witness :
    sumCounts ([(⟨⟨0, 0⟩, some 200, 4, none, none⟩ : RequestResult),
        ⟨⟨0, 0⟩, some 500, 0, some "HTTP error", none⟩].foldl Statistics.record
          (Statistics.new 0)).status_codes ≤
      ([(⟨⟨0, 0⟩, some 200, 4, none, none⟩ : RequestResult),
        ⟨⟨0, 0⟩, some 500, 0, some "HTTP error", none⟩].foldl Statistics.record
          (Statistics.new 0)).total_requests ∧
    lookupCount ((Statistics.new 0).record
        ⟨⟨0, 0⟩, some 500, 0, some "HTTP error", none⟩).status_codes 500 =
      lookupCount (Statistics.new 0).status_codes 500 + 1 :=
  status_codes_sum_bounded 0
    [⟨⟨0, 0⟩, some 200, 4, none, none⟩,
     ⟨⟨0, 0⟩, some 500, 0, some "HTTP error", none⟩]
    (Statistics.new 0) ⟨⟨0, 0⟩, some 500, 0, some "HTTP error", none⟩ 500 rfl

end Quickurl
